import Mathlib

/-!
Verification of the supply-chain dependency-graph analysis core of
`security/sbom/supply-chain-analyzer.py`.

Shallow embedding conventions:
* Python `float` arithmetic is modelled by exact rationals (`ℚ`); every
  constant appearing in the source (0.5, 2.0, 0.1, ...) is an exact decimal,
  and all compared thresholds are decimals, so no statement here depends on
  binary floating-point rounding.
* Python dicts holding optional keys become structures with `Option` fields;
  `d.get(k, default)` becomes `field.getD default` when the key can be absent,
  and just the stored `Option` value when the key is always present but its
  value may be Python `None` (the two cases are distinguished per field
  following the data flow of the source).
* Fallible code (`raise` / `try ... except`) is modelled with `Except`.
* Several methods invoked by the analyzer (`_calculate_max_depth`,
  `_find_circular_dependencies`, `_find_orphaned_dependencies`,
  `_find_single_points_of_failure`, `_find_critical_paths`,
  `_find_vulnerable_paths`, `_calculate_risk_distribution`,
  `_calculate_trust_distribution`, `_extract_maintainer_info`,
  `_extract_repository_info`, `_extract_security_metrics`,
  `_find_dependency_introducer`, `_calculate_edge_risk_contribution`,
  `_store_analysis`) are called in the source but defined nowhere in the
  repository.  Each such definition below is marked `Modelled from the spec:`
  and follows the specification's wording for the missing piece.
-/

namespace SupplyChain

/-- Enum `TrustLevel` of the source (values verified/trusted/neutral/
suspicious/untrusted). -/
inductive TrustLevel where
  | verified
  | trusted
  | neutral
  | suspicious
  | untrusted
deriving DecidableEq, Repr

/-- Enum `DependencyType` of the source (values direct/transitive/dev/peer/
optional). -/
inductive DependencyType where
  | direct
  | transitive
  | dev
  | peer
  | optional
deriving DecidableEq, Repr

/-- Enum `SupplyChainRisk` of the source (values minimal/low/medium/high/
critical); used only for the risk-distribution buckets. -/
inductive SupplyChainRisk where
  | minimal
  | low
  | medium
  | high
  | critical
deriving DecidableEq, Repr

/-- `DependencyType(value)` — Python `Enum` lookup by value; returns `none`
where Python raises `ValueError`. -/
def DependencyType.ofValue? : String → Option DependencyType
  | "direct" => some .direct
  | "transitive" => some .transitive
  | "dev" => some .dev
  | "peer" => some .peer
  | "optional" => some .optional
  | _ => none

/-- Registry information returned by `get_package_info` collaborators
(`age_days`, `downloads`, `maintainers`); every key optional (the bundled
stub clients return `{}`). -/
structure RegistryInfo where
  age_days : Option ℤ := none
  downloads : Option ℕ := none
  maintainers : Option (List String) := none
deriving DecidableEq, Repr

/-- Security information returned by `_get_security_information`
(`vulnerability_count`, `critical_vulnerabilities`, `security_advisories`). -/
structure SecurityInfo where
  vulnerability_count : Option ℕ := none
  critical_vulnerabilities : Option ℕ := none
  security_advisories : List String := []
deriving DecidableEq, Repr

/-- Trust information returned by `_get_trust_information`
(`signed`, `maintainer_reputation`, `security_incidents`). -/
structure TrustInfo where
  signed : Option Bool := none
  maintainer_reputation : Option ℚ := none
  security_incidents : Option ℕ := none
deriving DecidableEq, Repr

/-- Attribute dictionary of a graph node.  The first group of fields comes
from `_extract_components` (CycloneDX components or SPDX packages; fields
absent for the other format are `none`); `licenses`/`hashes` and the SPDX
licensing fields are carried verbatim but read by no downstream computation.
The three `_info` fields are written by enrichment (`none` = key absent). -/
structure NodeAttrs where
  name : Option String := none
  version : Option String := none
  typ : Option String := none
  purl : Option String := none
  scope : Option String := none
  licenses : List String := []
  hashes : List String := []
  downloadLocation : Option String := none
  licenseConcluded : Option String := none
  copyrightText : Option String := none
  registry_info : Option RegistryInfo := none
  security_info : Option SecurityInfo := none
  trust_info : Option TrustInfo := none
deriving DecidableEq, Repr

/-- Attribute dictionary of a graph edge, as written by
`_build_dependency_graph` (`add_edge(source, target, **dep)`); the builder
always stores `type` and never stores `version_constraint`. -/
structure EdgeAttrs where
  typ : Option String := none
  version_constraint : Option String := none
deriving DecidableEq, Repr

/-- `networkx.DiGraph`: a simple directed graph with attribute dictionaries;
at most one edge per ordered `(source, target)` pair, self-loops allowed.
`nodes` is the node dictionary in insertion order.  `edges` is the internal
edge store: one entry per ordered pair, in global first-insertion order —
this preserves each source's relative insertion order, from which
`DiGraph.edgeList` below reconstructs the adjacency-grouped iteration order
of `graph.edges()`. -/
structure DiGraph where
  nodes : List (String × NodeAttrs)
  edges : List (String × String × EdgeAttrs)
deriving DecidableEq, Repr

def DiGraph.empty : DiGraph := ⟨[], []⟩

/-- `graph.has_node(v)`. -/
def DiGraph.hasNode (g : DiGraph) (v : String) : Bool :=
  g.nodes.any (fun p => p.1 = v)

/-- Node identifiers in insertion order (`list(graph.nodes())`). -/
def DiGraph.nodeIds (g : DiGraph) : List String :=
  g.nodes.map (fun p => p.1)

/-- `graph.add_node(id, **attrs)`: updates the attribute dict in place when
the node exists (here the full attribute set is rewritten, matching
`dict.update` with an identical key set), otherwise appends. -/
def DiGraph.addNode (g : DiGraph) (v : String) (a : NodeAttrs) : DiGraph :=
  if g.hasNode v then
    { g with nodes := g.nodes.map (fun p => if p.1 = v then (v, a) else p) }
  else
    { g with nodes := g.nodes ++ [(v, a)] }

/-- `graph.add_edge(s, t, **attrs)`: auto-adds missing endpoint nodes (with
empty attribute dicts), overwrites the attributes of an existing `(s, t)`
edge in place (networkx keeps the edge at its original position in
`succ[s]`), otherwise appends the edge to the store — a fresh successor goes
to the end of `succ[s]`, and the global store order restricted to one source
is exactly that source's successor insertion order. -/
def DiGraph.addEdge (g : DiGraph) (s t : String) (e : EdgeAttrs) : DiGraph :=
  let g := if g.hasNode s then g else { g with nodes := g.nodes ++ [(s, {})] }
  let g := if g.hasNode t then g else { g with nodes := g.nodes ++ [(t, {})] }
  if g.edges.any (fun x => x.1 = s && x.2.1 = t) then
    { g with edges := g.edges.map (fun x => if x.1 = s && x.2.1 = t then (s, t, e) else x) }
  else
    { g with edges := g.edges ++ [(s, t, e)] }

/-- Sources of edges ending in `v` (`graph.predecessors(v)`). -/
def DiGraph.inNeighbors (g : DiGraph) (v : String) : List String :=
  g.edges.filterMap (fun x => if x.2.1 = v then some x.1 else none)

/-- Targets of edges starting at `v` (`graph.successors(v)`). -/
def DiGraph.outNeighbors (g : DiGraph) (v : String) : List String :=
  g.edges.filterMap (fun x => if x.1 = v then some x.2.1 else none)

/-- `graph.edges()`: networkx iterates the adjacency structure — for each
node in node-insertion order, that node's outgoing edges in successor
insertion order (not in global edge-insertion order when sources
interleave). -/
def DiGraph.edgeList (g : DiGraph) : List (String × String × EdgeAttrs) :=
  g.nodes.flatMap (fun p => g.edges.filter (fun x => x.1 = p.1))

/-- `graph.degree(v)` on a `networkx.DiGraph`: in-degree plus out-degree
(a self-loop contributes 2). -/
def DiGraph.degree (g : DiGraph) (v : String) : ℕ :=
  (g.inNeighbors v).length + (g.outNeighbors v).length

/-- Breadth-first search by level expansion, fuel-driven so that it evaluates
by kernel reduction; fuel `g.nodes.length + 1` suffices since the number of
BFS levels is at most the number of nodes. -/
def bfsDistAux (g : DiGraph) (target : String) :
    ℕ → List String → List String → ℕ → Option ℕ
  | 0, _, _, _ => none
  | fuel + 1, frontier, visited, d =>
    if frontier.contains target then some d
    else
      let next := ((frontier.flatMap g.outNeighbors).filter
        (fun w => !(visited.contains w) && !(frontier.contains w))).eraseDups
      if next.isEmpty then none
      else bfsDistAux g target fuel next (visited ++ frontier) (d + 1)

/-- `nx.shortest_path_length(graph, source=s, target=t)`: length (in edges) of
a shortest directed path from `s` to `t`, `none` where networkx raises
`NetworkXNoPath`. -/
def DiGraph.shortestPathLen (g : DiGraph) (s t : String) : Option ℕ :=
  bfsDistAux g t (g.nodes.length + 1) [s] [] 0

/-- A raw CycloneDX component record (the keys read by
`_extract_components`; `licenses` and `hashes` are opaque payloads). -/
structure CdxComponent where
  name : Option String := none
  version : Option String := none
  typ : Option String := none
  purl : Option String := none
  scope : Option String := none
  licenses : List String := []
  hashes : List String := []
deriving DecidableEq, Repr

/-- A raw CycloneDX dependency record: `ref` plus its `dependsOn` list. -/
structure CdxDependency where
  ref : Option String := none
  dependsOn : List String := []
deriving DecidableEq, Repr

/-- A raw SPDX package record (the keys read by `_extract_components`). -/
structure SpdxPackage where
  name : Option String := none
  versionInfo : Option String := none
  downloadLocation : Option String := none
  licenseConcluded : Option String := none
  copyrightText : Option String := none
deriving DecidableEq, Repr

/-- A raw SPDX relationship record. -/
structure SpdxRelationship where
  relationshipType : Option String := none
  spdxElementId : Option String := none
  relatedSpdxElement : Option String := none
deriving DecidableEq, Repr

/-- Parsed SBOM input dictionary: format markers plus the component and
relationship sequences of both supported formats. -/
structure Sbom where
  bomFormat : Option String := none
  spdxVersion : Option String := none
  components : List CdxComponent := []
  dependencies : List CdxDependency := []
  packages : List SpdxPackage := []
  relationships : List SpdxRelationship := []
deriving DecidableEq, Repr

/-- Python truthiness of an optional string (`None` and `''` are falsy). -/
def pyTruthy : Option String → Bool
  | none => false
  | some s => s ≠ ""

/-- Rendering of an optional string inside an f-string: Python `None`
formats as the four characters `None`. -/
def pyStr : Option String → String
  | none => "None"
  | some s => s

/-- `_extract_components`: CycloneDX components or SPDX packages, normalised
to node-attribute dictionaries.  CycloneDX stores the raw (possibly `None`)
`name`/`version` values and defaults `scope` to `required`; SPDX defaults
the version to `unknown` and the type to `library`. -/
def extractComponents (sbom : Sbom) : List NodeAttrs :=
  if sbom.bomFormat = some "CycloneDX" then
    sbom.components.map (fun c =>
      { name := c.name
        version := c.version
        typ := c.typ
        purl := c.purl
        scope := some (c.scope.getD "required")
        licenses := c.licenses
        hashes := c.hashes })
  else if pyTruthy sbom.spdxVersion then
    sbom.packages.map (fun p =>
      { name := p.name
        version := some (p.versionInfo.getD "unknown")
        typ := some "library"
        downloadLocation := p.downloadLocation
        licenseConcluded := p.licenseConcluded
        copyrightText := p.copyrightText })
  else []

/-- A dependency record produced by `_extract_dependencies`
(`{source, target, type}`; `type` is always `depends_on`). -/
structure Dep where
  source : Option String := none
  target : Option String := none
  typ : String := "depends_on"
deriving DecidableEq, Repr

/-- `_extract_dependencies`: CycloneDX `dependencies[*].dependsOn` entries or
SPDX `DEPENDS_ON` relationships, one record per (ref, dependsOn-element). -/
def extractDependencies (sbom : Sbom) : List Dep :=
  if sbom.bomFormat = some "CycloneDX" then
    sbom.dependencies.flatMap (fun d =>
      d.dependsOn.map (fun t => { source := d.ref, target := some t }))
  else if pyTruthy sbom.spdxVersion then
    (sbom.relationships.filter
        (fun r => r.relationshipType = some "DEPENDS_ON")).map
      (fun r => { source := r.spdxElementId, target := r.relatedSpdxElement })
  else []

/-- Node identifier `f"{component.get('name', '')}@{component.get('version', '')}"`;
both keys are always present after extraction, so the stored value (possibly
`None`, which an f-string renders as `None`) is used, never the default. -/
def nodeIdOf (a : NodeAttrs) : String :=
  pyStr a.name ++ "@" ++ pyStr a.version

/-- The node-adding loop of `_build_dependency_graph`. -/
def addComponentNode (g : DiGraph) (a : NodeAttrs) : DiGraph :=
  g.addNode (nodeIdOf a) a

/-- One iteration of the edge-adding loop of `_build_dependency_graph`:
`if source and target and graph.has_node(source) and graph.has_node(target)`. -/
def edgeAddable (g : DiGraph) (d : Dep) : Bool :=
  pyTruthy d.source && pyTruthy d.target &&
    g.hasNode (d.source.getD "") && g.hasNode (d.target.getD "")

def edgeStep (g : DiGraph) (d : Dep) : DiGraph :=
  if edgeAddable g d then
    g.addEdge (d.source.getD "") (d.target.getD "")
      { typ := some d.typ, version_constraint := none }
  else g

/-- The graph as built by `_build_dependency_graph` before enrichment:
one node per extracted component, then the guarded edge additions. -/
def buildGraphBase (sbom : Sbom) : DiGraph :=
  let g := (extractComponents sbom).foldl addComponentNode DiGraph.empty
  (extractDependencies sbom).foldl edgeStep g

/-- Python `s.startswith(pre)`, computed on the underlying character lists
(so that it evaluates by kernel reduction). -/
def strStartsWith (s pre : String) : Bool :=
  pre.data.isPrefixOf s.data

/-- `_extract_package_manager`: dispatch on the PURL scheme; `None` or the
empty string (and any unrecognised scheme) map to `unknown`. -/
def extractPackageManager (purl : Option String) : String :=
  if !pyTruthy purl then "unknown"
  else
    let p := purl.getD ""
    if strStartsWith p "pkg:npm/" then "npm"
    else if strStartsWith p "pkg:pypi/" then "pypi"
    else if strStartsWith p "pkg:maven/" then "maven"
    else if strStartsWith p "pkg:nuget/" then "nuget"
    else if strStartsWith p "pkg:gem/" then "rubygems"
    else "unknown"

/-- The keys of `self.package_registries`. -/
def registryManagers : List String := ["npm", "pypi", "maven", "nuget", "rubygems"]

/-- The enrichment collaborators injected into the analyzer: one registry
lookup per package manager plus the security and trust sources.  Each call
may fail (`Except.error` models a raised exception). -/
structure Enrichment where
  getPackageInfo : String → Option String → Option String → Except String RegistryInfo
  getSecurityInfo : Option String → Option String → String → Except String SecurityInfo
  getTrustInfo : Option String → Option String → String → Except String TrustInfo

/-- Result dictionary of `_enrich_node_data`: the keys actually written
before returning (a field is `none` when the key was never set, either
because the lookup was skipped or because an exception interrupted the
`try` block first). -/
structure EnrichedData where
  registry_info : Option RegistryInfo := none
  security_info : Option SecurityInfo := none
  trust_info : Option TrustInfo := none
deriving DecidableEq, Repr

/-- Tail of the `try` block of `_enrich_node_data` after the optional
registry lookup: the security lookup, then the trust lookup; the first
failure is caught by the surrounding `except`, keeping whatever keys were
already written. -/
def enrichSecurityTrust (env : Enrichment) (name version : Option String)
    (pm : String) (reg : Option RegistryInfo) : EnrichedData :=
  match env.getSecurityInfo name version pm with
  | .error _ => { registry_info := reg }
  | .ok s =>
    match env.getTrustInfo name version pm with
    | .error _ => { registry_info := reg, security_info := some s }
    | .ok t => { registry_info := reg, security_info := some s, trust_info := some t }

/-- `_enrich_node_data`: registry lookup (only for a known package manager),
then security and trust lookups, all inside one `try` whose `except` logs a
warning and returns the partially filled dictionary. -/
def enrichNodeData (env : Enrichment) (a : NodeAttrs) : EnrichedData :=
  let name := a.name
  let version := a.version
  let pm := extractPackageManager a.purl
  if registryManagers.contains pm then
    match env.getPackageInfo pm name version with
    | .error _ => {}
    | .ok r => enrichSecurityTrust env name version pm (some r)
  else enrichSecurityTrust env name version pm none

/-- `dict.update(data)` on a node's attribute dictionary with an enrichment
result: keys present in `data` overwrite, absent keys are kept. -/
def mergeEnriched (a : NodeAttrs) (e : EnrichedData) : NodeAttrs :=
  { a with
    registry_info := e.registry_info.orElse (fun _ => a.registry_info)
    security_info := e.security_info.orElse (fun _ => a.security_info)
    trust_info := e.trust_info.orElse (fun _ => a.trust_info) }

/-- `graph.nodes[node_id].update(data)` applied through the node list:
every entry whose identifier matches is updated (identifiers are unique in
graphs built by the builder). -/
def applyUpdate (ns : List (String × NodeAttrs)) (u : String × EnrichedData) :
    List (String × NodeAttrs) :=
  ns.map (fun p => if p.1 = u.1 then (p.1, mergeEnriched p.2 u.2) else p)

/-- Splitting a list into consecutive chunks of `bs` elements, fuel-driven
(fuel `l.length` suffices for `bs > 0`); models the
`for i in range(0, len(tasks), batch_size)` loop of `_enrich_dependency_graph`. -/
def chunksAux (bs : ℕ) : ℕ → List α → List (List α)
  | 0, _ => []
  | _, [] => []
  | fuel + 1, l => l.take bs :: chunksAux bs fuel (l.drop bs)

def chunks (bs : ℕ) (l : List α) : List (List α) :=
  chunksAux bs l.length l

/-- `_enrich_dependency_graph`: one enrichment task per node (paired here
with its identifier, as the source re-associates results with
`list(graph.nodes())[i + j]`), gathered in batches of 10 and written back
into the node attribute dictionaries.  `asyncio.gather(..., return_exceptions=True)`
never yields a non-dict here because `_enrich_node_data` catches internally,
so the `isinstance(data, dict)` guard always passes. -/
def enrichDependencyGraph (env : Enrichment) (g : DiGraph) : DiGraph :=
  let tasks := g.nodes.map (fun p => (p.1, enrichNodeData env p.2))
  let batches := chunks 10 tasks
  { g with nodes := batches.foldl (fun ns b => b.foldl applyUpdate ns) g.nodes }

/-- `_build_dependency_graph`: extraction, node and edge insertion, then
enrichment. -/
def buildDependencyGraph (env : Enrichment) (sbom : Sbom) : DiGraph :=
  enrichDependencyGraph env (buildGraphBase sbom)

/-- The collaborator stubs bundled with the source: every registry client's
`get_package_info` returns `{}`, `_get_security_information` returns zero
counts, `_get_trust_information` returns unsigned / reputation 0.5 / zero
incidents. -/
def stubEnv : Enrichment where
  getPackageInfo := fun _ _ _ => .ok {}
  getSecurityInfo := fun _ _ _ =>
    .ok { vulnerability_count := some 0, critical_vulnerabilities := some 0,
          security_advisories := [] }
  getTrustInfo := fun _ _ _ =>
    .ok { signed := some false, maintainer_reputation := some (1/2),
          security_incidents := some 0 }

/-- `_calculate_trust_level`: verified signature first, then maintainer
reputation (default 0.5) against 0.8 / 0.3, then the security-incident count
(default 0) against 3, else neutral. -/
def calculateTrustLevel (a : NodeAttrs) : TrustLevel :=
  let trustInfo := a.trust_info.getD {}
  if trustInfo.signed.getD false then .verified
  else
    let maintainerScore := trustInfo.maintainer_reputation.getD (1/2)
    if maintainerScore > 4/5 then .trusted
    else if maintainerScore < 3/10 then .suspicious
    else
      let securityIncidents := trustInfo.security_incidents.getD 0
      if securityIncidents > 3 then .untrusted
      else .neutral

/-- The body of `_calculate_node_risk_score` with the dependency-depth term
factored out: `dOpt` is the result of the `try` block around
`nx.shortest_path_length` (`none` when the bare `except` swallowed
`IndexError` on an empty graph or `NetworkXNoPath`). -/
def nodeRiskScoreOfDepth (a : NodeAttrs) (dOpt : Option ℕ) : ℚ :=
  let securityInfo := a.security_info.getD {}
  let vulnCount := securityInfo.vulnerability_count.getD 0
  let criticalVulns := securityInfo.critical_vulnerabilities.getD 0
  let r := (criticalVulns : ℚ) * 2 + (vulnCount : ℚ) * (1/2)
  let registryInfo := a.registry_info.getD {}
  let ageDays := registryInfo.age_days.getD 365
  let r := r + (if ageDays < 30 then 1 else if ageDays > 2000 then 1/2 else 0)
  let downloads := registryInfo.downloads.getD 0
  let r := r + (if downloads < 1000 then 1 else if downloads < 10000 then 1/2 else 0)
  let maintainerCount := (registryInfo.maintainers.getD []).length
  let r := r + (if maintainerCount = 1 then 1/2 else if maintainerCount = 0 then 1 else 0)
  let r := r + (match dOpt with | some d => (d : ℚ) * (1/10) | none => 0)
  min r 10

/-- The depth used by `_calculate_node_risk_score`: shortest-path distance
from `list(graph.nodes())[0]` (the first inserted node) to the node; `none`
when the graph is empty or the node is unreachable (bare `except: pass`). -/
def depthOpt (g : DiGraph) (nodeId : String) : Option ℕ :=
  match g.nodes.head? with
  | none => none
  | some p => g.shortestPathLen p.1 nodeId

/-- `_calculate_node_risk_score`. -/
def calculateNodeRiskScore (a : NodeAttrs) (g : DiGraph) (nodeId : String) : ℚ :=
  nodeRiskScoreOfDepth a (depthOpt g nodeId)

/-- `_determine_dependency_type`: scope first, then direct iff the node has
no predecessors. -/
def determineDependencyType (a : NodeAttrs) (g : DiGraph) (nodeId : String) :
    DependencyType :=
  let scope := a.scope.getD "required"
  if scope = "optional" then .optional
  else if scope = "dev" then .dev
  else if (g.inNeighbors nodeId).isEmpty then .direct
  else .transitive

/-- Modelled from the spec: `_extract_maintainer_info` is called by
`_analyze_nodes` but defined nowhere in the repository; §3 lists
"maintainer info" among node attributes and §6 names `maintainers` as
registry data, so it is modelled as the maintainer list from the node's
registry enrichment. -/
def extractMaintainerInfo (a : NodeAttrs) : Option (List String) :=
  a.registry_info.bind (fun r => r.maintainers)

/-- Modelled from the spec: `_extract_repository_info` is called by
`_analyze_nodes` but defined nowhere in the repository; §3 lists
"repository info" among node attributes, modelled as the package URL, the
only repository pointer the data model carries. -/
def extractRepositoryInfo (a : NodeAttrs) : Option String :=
  a.purl

/-- Modelled from the spec: `_extract_security_metrics` is called by
`_analyze_nodes` but defined nowhere in the repository; §3 describes the
field as "security metrics (vulnerability counts)", modelled as the node's
security enrichment data. -/
def extractSecurityMetrics (a : NodeAttrs) : Option SecurityInfo :=
  a.security_info

/-- The dataclass `SupplyChainNode` (field types follow the values actually
stored: `name`/`version` keep the possibly-`None` strings). -/
structure SCNode where
  id : String
  name : Option String
  version : Option String
  package_manager : String
  dependency_type : DependencyType
  trust_level : TrustLevel
  risk_score : ℚ
  maintainer_info : Option (List String)
  repository_info : Option String
  security_metrics : Option SecurityInfo
  metadata : NodeAttrs
deriving DecidableEq, Repr

/-- `_analyze_nodes`: one `SupplyChainNode` per graph node, in node order. -/
def analyzeNodes (g : DiGraph) : List SCNode :=
  g.nodes.map (fun p =>
    { id := p.1
      name := p.2.name
      version := p.2.version
      package_manager := extractPackageManager p.2.purl
      dependency_type := determineDependencyType p.2 g p.1
      trust_level := calculateTrustLevel p.2
      risk_score := calculateNodeRiskScore p.2 g p.1
      maintainer_info := extractMaintainerInfo p.2
      repository_info := extractRepositoryInfo p.2
      security_metrics := extractSecurityMetrics p.2
      metadata := p.2 })

/-- The dataclass `SupplyChainEdge`. -/
structure SCEdge where
  source_id : String
  target_id : String
  dependency_type : DependencyType
  version_constraint : String
  introduced_by : Option String
  risk_contribution : ℚ
deriving DecidableEq, Repr

/-- Exceptions the analysis core can raise. -/
inductive AnalyzeError where
  | valueError (msg : String)
  | typeError (msg : String)
deriving DecidableEq, Repr

/-- Modelled from the spec: `_find_dependency_introducer` is called by
`_analyze_edges` but defined nowhere in the repository; §9 records that the
`introduced_by` field "has no documented resolution algorithm beyond a
placeholder" and is a best-effort hint, so it is modelled as no hint. -/
def findDependencyIntroducer (_g : DiGraph) (_s _t : String) : Option String :=
  none

/-- The risk score of a node looked up by identifier (0 for an unknown
identifier). -/
def nodeRiskAt (g : DiGraph) (v : String) : ℚ :=
  match g.nodes.find? (fun p => p.1 = v) with
  | some p => calculateNodeRiskScore p.2 g v
  | none => 0

/-- Modelled from the spec: `_calculate_edge_risk_contribution` is called by
`_analyze_edges` but defined nowhere in the repository; §4.3 requires only a
numeric value "monotonic in both endpoints' risk scores", modelled as the
mean of the endpoint risk scores. -/
def calculateEdgeRiskContribution (g : DiGraph) (s t : String) : ℚ :=
  (nodeRiskAt g s + nodeRiskAt g t) / 2

/-- `_analyze_edges`: one `SupplyChainEdge` per edge of `graph.edges()`, in
its adjacency-grouped iteration order;
`DependencyType(edge_data.get('type', 'direct'))` raises `ValueError` when
the stored type string is not an enum value. -/
def analyzeEdges (g : DiGraph) : Except AnalyzeError (List SCEdge) :=
  g.edgeList.mapM (fun x =>
    let typeValue := x.2.2.typ.getD "direct"
    match DependencyType.ofValue? typeValue with
    | none =>
      .error (.valueError ("'" ++ typeValue ++ "' is not a valid DependencyType"))
    | some dt =>
      .ok { source_id := x.1
            target_id := x.2.1
            dependency_type := dt
            version_constraint := x.2.2.version_constraint.getD "*"
            introduced_by := findDependencyIntroducer g x.1 x.2.1
            risk_contribution := calculateEdgeRiskContribution g x.1 x.2.1 })

/-- Modelled from the spec: `_calculate_max_depth` is called by
`_perform_graph_analysis` but defined nowhere in the repository; §4.2 defines
max depth as the longest shortest-path distance from any in-degree-0 root,
zero for an empty graph (§4.2 failure semantics). -/
def maxDepthSpec (g : DiGraph) : ℕ :=
  let roots := g.nodeIds.filter (fun v => (g.inNeighbors v).isEmpty)
  let dists := roots.flatMap (fun r =>
    g.nodeIds.filterMap (fun v => g.shortestPathLen r v))
  dists.foldl max 0

def SupplyChainRisk.value : SupplyChainRisk → String
  | .minimal => "minimal"
  | .low => "low"
  | .medium => "medium"
  | .high => "high"
  | .critical => "critical"

def TrustLevel.value : TrustLevel → String
  | .verified => "verified"
  | .trusted => "trusted"
  | .neutral => "neutral"
  | .suspicious => "suspicious"
  | .untrusted => "untrusted"

/-- Modelled from the spec: the risk buckets used by
`_calculate_risk_distribution` (missing from the repository); §4.2 specifies
only "count of nodes per risk bucket", so the [0,10] scale is split evenly
over the five `SupplyChainRisk` categories. -/
def riskBucket (r : ℚ) : SupplyChainRisk :=
  if r < 2 then .minimal
  else if r < 4 then .low
  else if r < 6 then .medium
  else if r < 8 then .high
  else .critical

/-- Modelled from the spec: `_calculate_risk_distribution` is called by
`_perform_graph_analysis` but defined nowhere in the repository; §4.2: count
of nodes per risk bucket (a pure aggregation). -/
def riskDistributionSpec (nodes : List SCNode) : List (String × ℕ) :=
  [SupplyChainRisk.minimal, .low, .medium, .high, .critical].map (fun b =>
    (b.value, (nodes.filter (fun n => riskBucket n.risk_score = b)).length))

/-- Modelled from the spec: `_calculate_trust_distribution` is called by
`_perform_graph_analysis` but defined nowhere in the repository; §4.2: count
of nodes per trust level. -/
def trustDistributionSpec (nodes : List SCNode) : List (String × ℕ) :=
  [TrustLevel.verified, .trusted, .neutral, .suspicious, .untrusted].map (fun t =>
    (t.value, (nodes.filter (fun n => n.trust_level = t)).length))

/-- All directed simple paths with at least one edge, enumerated by a
fuel-driven depth-first search from every node. -/
def simplePathsAux (g : DiGraph) : ℕ → String → List String → List (List String)
  | 0, _, _ => []
  | fuel + 1, v, visited =>
    (g.outNeighbors v).flatMap (fun w =>
      if visited.contains w then []
      else (visited ++ [w]) :: simplePathsAux g fuel w (visited ++ [w]))

def allSimplePaths (g : DiGraph) : List (List String) :=
  g.nodeIds.flatMap (fun v => simplePathsAux g g.nodes.length v [v])

/-- Risk score of a node identifier inside an already-analysed node list. -/
def riskOfId (nodes : List SCNode) (v : String) : ℚ :=
  ((nodes.find? (fun n => n.id = v)).map (fun n => n.risk_score)).getD 0

/-- Vulnerability count of a node identifier inside an analysed node list. -/
def vulnCountOfId (nodes : List SCNode) (v : String) : ℕ :=
  match nodes.find? (fun n => n.id = v) with
  | some n => ((n.security_metrics.getD {}).vulnerability_count).getD 0
  | none => 0

/-- Modelled from the spec: `_find_critical_paths` is called by
`_perform_graph_analysis` but defined nowhere in the repository; §4.2: paths
whose cumulative per-node risk (sum) exceeds a threshold, truncated to a
bounded count; the threshold (15) and bound (5) are unconstrained choices. -/
def criticalPathsSpec (g : DiGraph) (nodes : List SCNode) : List (List String) :=
  ((allSimplePaths g).filter
      (fun path => (path.map (riskOfId nodes)).sum > 15)).take 5

/-- Modelled from the spec: `_find_vulnerable_paths` is called by
`_perform_graph_analysis` but defined nowhere in the repository; §4.2: paths
passing through at least one node with nonzero vulnerability count,
truncated to a bounded count (5, an unconstrained choice). -/
def vulnerablePathsSpec (g : DiGraph) (nodes : List SCNode) : List (List String) :=
  ((allSimplePaths g).filter
      (fun path => path.any (fun v => vulnCountOfId nodes v > 0))).take 5

/-- Modelled from the spec: `_find_orphaned_dependencies` is called by
`_perform_graph_analysis` but defined nowhere in the repository; §4.2:
nodes with no incoming and no outgoing edges. -/
def orphanedDependenciesSpec (g : DiGraph) : List String :=
  g.nodeIds.filter (fun v =>
    (g.inNeighbors v).isEmpty && (g.outNeighbors v).isEmpty)

/-- Simple cycles through `start` visiting only `allowed` nodes, fuel-driven
depth-first search with the recursion stack in `visited`. -/
def cyclesFromAux (g : DiGraph) (start : String) (allowed : List String) :
    ℕ → String → List String → List (List String)
  | 0, _, _ => []
  | fuel + 1, v, visited =>
    (g.outNeighbors v).flatMap (fun w =>
      if w = start then [visited]
      else if visited.contains w || !(allowed.contains w) then []
      else cyclesFromAux g start allowed fuel w (visited ++ [w]))

/-- Modelled from the spec: `_find_circular_dependencies` is called by
`_perform_graph_analysis` but defined nowhere in the repository; §4.2: find
all simple directed cycles, each reported as the ordered node sequence.
Each cycle is enumerated once, rooted at its earliest node in insertion
order (Johnson-style canonicalisation). -/
def circularDependenciesSpec (g : DiGraph) : List (List String) :=
  let ids := g.nodeIds
  (List.range ids.length).flatMap (fun i =>
    match ids.drop i with
    | [] => []
    | s :: _ => cyclesFromAux g s (ids.drop i) g.nodes.length s [s])

/-- Transitive closure of the undirected projection inside a vertex set,
fuel-driven breadth-first search. -/
def undirectedClosureAux (g : DiGraph) (vertices : List String) :
    ℕ → List String → List String → List String
  | 0, acc, _ => acc
  | fuel + 1, acc, frontier =>
    let next := ((frontier.flatMap (fun v => g.outNeighbors v ++ g.inNeighbors v)).filter
      (fun w => vertices.contains w && !(acc.contains w))).eraseDups
    if next.isEmpty then acc
    else undirectedClosureAux g vertices fuel (acc ++ next) next

def undirectedComponentCount (g : DiGraph) (vertices : List String) : ℕ :=
  (vertices.foldl
    (fun (st : List String × ℕ) v =>
      if st.1.contains v then st
      else (st.1 ++ undirectedClosureAux g vertices (vertices.length + 1) [v] [v], st.2 + 1))
    ([], 0)).2

/-- Modelled from the spec: `_find_single_points_of_failure` is called by
`_perform_graph_analysis` but defined nowhere in the repository; §4.2:
articulation points of the undirected projection — nodes whose removal
increases the number of connected components. -/
def singlePointsOfFailureSpec (g : DiGraph) : List String :=
  let ids := g.nodeIds
  let base := undirectedComponentCount g ids
  ids.filter (fun v =>
    undirectedComponentCount g (ids.filter (fun w => w ≠ v)) > base)

/-- The dictionary assembled by `_perform_graph_analysis` (the three
centrality maps it also stores are computed by networkx, feed neither the
returned `SupplyChainAnalysis` nor the recommendations, and are omitted). -/
structure GraphResults where
  max_depth : ℕ
  average_degree : ℚ
  risk_distribution : List (String × ℕ)
  trust_distribution : List (String × ℕ)
  critical_paths : List (List String)
  vulnerable_paths : List (List String)
  orphaned_dependencies : List String
  circular_dependencies : List (List String)
  single_points_of_failure : List String
deriving DecidableEq, Repr

/-- `_perform_graph_analysis`. -/
def performGraphAnalysis (g : DiGraph) (nodes : List SCNode)
    (_edges : List SCEdge) : GraphResults :=
  { max_depth := maxDepthSpec g
    average_degree :=
      if g.nodes.isEmpty then 0
      else ((g.nodeIds.map (fun v => (g.degree v : ℚ))).sum) / (g.nodes.length : ℚ)
    risk_distribution := riskDistributionSpec nodes
    trust_distribution := trustDistributionSpec nodes
    critical_paths := criticalPathsSpec g nodes
    vulnerable_paths := vulnerablePathsSpec g nodes
    orphaned_dependencies := orphanedDependenciesSpec g
    circular_dependencies := circularDependenciesSpec g
    single_points_of_failure := singlePointsOfFailureSpec g }

/-- `_calculate_supply_chain_score`: 0.0 for an empty node list, otherwise
the average inverted node risk minus the guarded structural penalties,
clamped once at the end. -/
def calculateSupplyChainScore (nodes : List SCNode)
    (results : GraphResults) : ℚ :=
  if nodes.isEmpty then 0
  else
    let nodeScores := nodes.map (fun n => 10 - n.risk_score)
    let baseScore := nodeScores.sum / (nodeScores.length : ℚ)
    let penalties : ℚ := 0
    let penalties := penalties +
      (if results.circular_dependencies.isEmpty then 0
       else (results.circular_dependencies.length : ℚ) * (1/2))
    let penalties := penalties +
      (if results.single_points_of_failure.isEmpty then 0
       else (results.single_points_of_failure.length : ℚ) * (3/10))
    let penalties := penalties +
      (if results.orphaned_dependencies.isEmpty then 0
       else (results.orphaned_dependencies.length : ℚ) * (1/5))
    let highRiskNodes := nodes.filter (fun n => n.risk_score > 7)
    let penalties := penalties +
      (if highRiskNodes.isEmpty then 0 else (highRiskNodes.length : ℚ) * (2/5))
    let untrustedNodes := nodes.filter (fun n => n.trust_level = .untrusted)
    let penalties := penalties +
      (if untrustedNodes.isEmpty then 0 else (untrustedNodes.length : ℚ) * (3/5))
    max 0 (min 10 (baseScore - penalties))

/-- Python `', '.join(items)` over possibly-`None` strings: raises
`TypeError` at the first non-string item. -/
def joinComma : List (Option String) → Except AnalyzeError String
  | [] => .ok ""
  | [none] => .error (.typeError "sequence item: expected str instance, NoneType found")
  | [some s] => .ok s
  | none :: _ => .error (.typeError "sequence item: expected str instance, NoneType found")
  | some s :: x :: xs => do
    let rest ← joinComma (x :: xs)
    .ok (s ++ ", " ++ rest)

/-- The fixed tail of general recommendations always appended. -/
def generalRecommendations : List String :=
  [ "Implement dependency pinning with exact versions for critical components"
  , "Set up automated dependency scanning and vulnerability monitoring"
  , "Establish a software bill of materials (SBOM) generation process"
  , "Create a dependency approval process for new packages"
  , "Implement package signature verification where available"
  , "Regular audit and cleanup of unused dependencies" ]

/-- `_generate_recommendations`. -/
def generateRecommendations (results : GraphResults) (nodes : List SCNode)
    (_edges : List SCEdge) : Except AnalyzeError (List String) := do
  let highRiskNodes := nodes.filter (fun n => n.risk_score > 7)
  let part1 ←
    if highRiskNodes.isEmpty then pure []
    else do
      let names ← joinComma ((highRiskNodes.take 3).map (fun n => n.name))
      pure ["CRITICAL: " ++ toString highRiskNodes.length ++
        " components have high supply chain risk. Review and consider alternatives for: " ++ names]
  let untrustedNodes := nodes.filter (fun n => n.trust_level = .untrusted)
  let part2 ←
    if untrustedNodes.isEmpty then pure []
    else do
      let names ← joinComma ((untrustedNodes.take 3).map (fun n => n.name))
      pure ["SECURITY: " ++ toString untrustedNodes.length ++
        " components are untrusted. Verify authenticity and consider removal: " ++ names]
  let part3 :=
    if results.circular_dependencies.isEmpty then []
    else ["ARCHITECTURE: " ++ toString results.circular_dependencies.length ++
      " circular dependencies detected. Refactor to eliminate circular references and reduce complexity."]
  let part4 :=
    if results.single_points_of_failure.isEmpty then []
    else ["RESILIENCE: " ++ toString results.single_points_of_failure.length ++
      " single points of failure identified. Consider alternative packages or implement redundancy."]
  let part5 :=
    if results.orphaned_dependencies.isEmpty then []
    else ["CLEANUP: " ++ toString results.orphaned_dependencies.length ++
      " orphaned dependencies found. Remove unused dependencies to reduce attack surface."]
  let part6 :=
    if results.max_depth > 10 then
      ["COMPLEXITY: Dependency chain depth is " ++ toString results.max_depth ++
        ". Consider flattening dependencies to reduce supply chain complexity."]
    else []
  pure (part1 ++ part2 ++ part3 ++ part4 ++ part5 ++ part6 ++ generalRecommendations)

/-- The dataclass `SupplyChainAnalysis`. -/
structure SupplyChainAnalysis where
  analysis_id : String
  timestamp : String
  total_nodes : ℕ
  total_edges : ℕ
  max_depth : ℕ
  risk_distribution : List (String × ℕ)
  trust_distribution : List (String × ℕ)
  critical_paths : List (List String)
  vulnerable_paths : List (List String)
  orphaned_dependencies : List String
  circular_dependencies : List (List String)
  single_points_of_failure : List String
  supply_chain_score : ℚ
  recommendations : List String
  nodes : List SCNode
  edges : List SCEdge
deriving DecidableEq, Repr

/-- `analyze_supply_chain`: the full pipeline.  `analysisId` and `timestamp`
stand for the freshly drawn `uuid.uuid4()` and `datetime.now(...)`;
`_store_analysis` (missing from the repository; §3 makes persistence a
collaborator concern with no effect on the returned object) is modelled as
a no-op. -/
def analyzeSupplyChain (env : Enrichment) (sbom : Sbom)
    (analysisId timestamp : String) : Except AnalyzeError SupplyChainAnalysis := do
  let graph := buildDependencyGraph env sbom
  let nodes := analyzeNodes graph
  let edges ← analyzeEdges graph
  let results := performGraphAnalysis graph nodes edges
  let score := calculateSupplyChainScore nodes results
  let recommendations ← generateRecommendations results nodes edges
  pure
    { analysis_id := analysisId
      timestamp := timestamp
      total_nodes := nodes.length
      total_edges := edges.length
      max_depth := results.max_depth
      risk_distribution := results.risk_distribution
      trust_distribution := results.trust_distribution
      critical_paths := results.critical_paths
      vulnerable_paths := results.vulnerable_paths
      orphaned_dependencies := results.orphaned_dependencies
      circular_dependencies := results.circular_dependencies
      single_points_of_failure := results.single_points_of_failure
      supply_chain_score := score
      recommendations := recommendations
      nodes := nodes
      edges := edges }

/-- Every field of `SupplyChainAnalysis` except the per-invocation
`analysis_id` and `timestamp`. -/
structure AnalysisCore where
  total_nodes : ℕ
  total_edges : ℕ
  max_depth : ℕ
  risk_distribution : List (String × ℕ)
  trust_distribution : List (String × ℕ)
  critical_paths : List (List String)
  vulnerable_paths : List (List String)
  orphaned_dependencies : List String
  circular_dependencies : List (List String)
  single_points_of_failure : List String
  supply_chain_score : ℚ
  recommendations : List String
  nodes : List SCNode
  edges : List SCEdge
deriving DecidableEq, Repr

def SupplyChainAnalysis.core (a : SupplyChainAnalysis) : AnalysisCore :=
  { total_nodes := a.total_nodes
    total_edges := a.total_edges
    max_depth := a.max_depth
    risk_distribution := a.risk_distribution
    trust_distribution := a.trust_distribution
    critical_paths := a.critical_paths
    vulnerable_paths := a.vulnerable_paths
    orphaned_dependencies := a.orphaned_dependencies
    circular_dependencies := a.circular_dependencies
    single_points_of_failure := a.single_points_of_failure
    supply_chain_score := a.supply_chain_score
    recommendations := a.recommendations
    nodes := a.nodes
    edges := a.edges }

/-! Claim-side definitions: formulas written from the claims' wording, to be
compared with the source-side definitions above. -/

/-- C10's wording of trust-level classification: signed wins outright, then
reputation `> 0.8` / `< 0.3`, then `> 3` incidents, else neutral. -/
def trustLevelClaim (signed : Bool) (reputation : ℚ) (incidents : ℕ) : TrustLevel :=
  if signed then .verified
  else if reputation > 4/5 then .trusted
  else if reputation < 3/10 then .suspicious
  else if incidents > 3 then .untrusted
  else .neutral

/-- C3's wording of the per-node risk score: the weighted vulnerability sum,
the age penalty (the source's own comment equates "older than 5 years" with
`age_days > 2000`), the popularity penalty, the maintainer-count penalty and
the depth penalty, clamped to [0, 10]. -/
def nodeRiskClaim (criticalVulns vulnCount : ℕ) (ageDays : ℤ)
    (downloads : ℕ) (maintainerCount : ℕ) (dOpt : Option ℕ) : ℚ :=
  let total :=
    (criticalVulns : ℚ) * 2 + (vulnCount : ℚ) * (1/2)
    + (if ageDays < 30 then 1 else if ageDays > 2000 then 1/2 else 0)
    + (if downloads < 1000 then 1 else if downloads < 10000 then 1/2 else 0)
    + (if maintainerCount = 1 then 1/2 else if maintainerCount = 0 then 1 else 0)
    + (match dOpt with | some d => (d : ℚ) * (1/10) | none => 0)
  max 0 (min 10 total)

/-- C2's wording of the aggregate score: base score (average inverted risk)
minus the un-floored penalty sum, clamped exactly once. -/
def supplyChainScoreClaim (nodes : List SCNode) (results : GraphResults) : ℚ :=
  let baseScore := (nodes.map (fun n => 10 - n.risk_score)).sum / (nodes.length : ℚ)
  let totalPenalties : ℚ :=
    (results.circular_dependencies.length : ℚ) * (1/2)
    + (results.single_points_of_failure.length : ℚ) * (3/10)
    + (results.orphaned_dependencies.length : ℚ) * (1/5)
    + ((nodes.filter (fun n => n.risk_score > 7)).length : ℚ) * (2/5)
    + ((nodes.filter (fun n => n.trust_level = .untrusted)).length : ℚ) * (3/5)
  max 0 (min 10 (baseScore - totalPenalties))

/-- First-occurrence deduplication with an explicit seen-accumulator. -/
def dedupAppend [BEq α] (seen : List α) (l : List α) : List α :=
  l.foldl (fun acc x => if acc.contains x then acc else acc ++ [x]) seen

/-- First-occurrence deduplication of a list. -/
def firstDedup [BEq α] (l : List α) : List α :=
  dedupAppend [] l

/-- The ordered `(source, target)` key of a stored edge. -/
def edgeKey (x : String × String × EdgeAttrs) : String × String :=
  (x.1, x.2.1)

/-- The `(source, target)` keys of the extracted dependency records that pass
the builder's guard against a fixed graph (the node set never changes while
edges are added, so the guard can be evaluated against the pre-edge graph). -/
def validEdgeKeys (g : DiGraph) (ds : List Dep) : List (String × String) :=
  ds.filterMap (fun d =>
    if edgeAddable g d then some (d.source.getD "", d.target.getD "") else none)

/-- The graph holding the component nodes only (the state of
`_build_dependency_graph` before the edge loop). -/
def componentGraph (sbom : Sbom) : DiGraph :=
  (extractComponents sbom).foldl addComponentNode DiGraph.empty

/-- Whether both endpoint references of a relationship record match existing
node identifiers of the graph (the condition C6 speaks about). -/
def bothEndpointsMatch (g : DiGraph) (d : Dep) : Bool :=
  match d.source, d.target with
  | some s, some t => g.hasNode s && g.hasNode t
  | _, _ => false

/-! Concrete inputs used by counterexamples and witnesses. -/

/-- A minimal well-formed CycloneDX SBOM with two components and one
`dependsOn` relationship between them. -/
def sbomOneEdge : Sbom :=
  { bomFormat := some "CycloneDX"
    components :=
      [ { name := some "A", version := some "1.0" }
      , { name := some "B", version := some "2.0" } ]
    dependencies := [ { ref := some "A@1.0", dependsOn := ["B@2.0"] } ] }

/-- A CycloneDX SBOM whose dependency list contains a duplicated
`(A@1.0, B@2.0)` entry and a self-loop on `A@1.0` (three entries total). -/
def sbomDupEdges : Sbom :=
  { bomFormat := some "CycloneDX"
    components :=
      [ { name := some "A", version := some "1.0" }
      , { name := some "B", version := some "2.0" } ]
    dependencies :=
      [ { ref := some "A@1.0", dependsOn := ["B@2.0", "B@2.0", "A@1.0"] } ] }

/-- A CycloneDX SBOM whose single component is missing its `name` field. -/
def sbomMissingName : Sbom :=
  { bomFormat := some "CycloneDX"
    components := [ { version := some "1.0" } ] }

/-- A CycloneDX SBOM with one npm component, used to exercise enrichment. -/
def sbomOneNpm : Sbom :=
  { bomFormat := some "CycloneDX"
    components :=
      [ { name := some "left-pad", version := some "1.3.0"
          purl := some "pkg:npm/left-pad@1.3.0" } ] }

/-- An enrichment environment whose registry and security lookups succeed
but whose trust lookup always throws. -/
def envTrustFails : Enrichment where
  getPackageInfo := fun _ _ _ => .ok { age_days := some 100 }
  getSecurityInfo := fun _ _ _ =>
    .ok { vulnerability_count := some 1, critical_vulnerabilities := some 0 }
  getTrustInfo := fun _ _ _ => .error "trust service unavailable"

/-- Node attributes of a component with `critical_vulnerabilities = 2` and
otherwise-default enrichment data (the C3 scenario). -/
def crit2Attrs : NodeAttrs :=
  { name := some "evil", version := some "0.1"
    security_info := some { vulnerability_count := some 0,
                            critical_vulnerabilities := some 2,
                            security_advisories := [] } }

/-- The node-attribute dictionary extracted for the nameless component of
`sbomMissingName`. -/
def missingNameAttrs : NodeAttrs :=
  { version := some "1.0", scope := some "required" }

/-- An enrichment environment in which every lookup throws. -/
def envAllFail : Enrichment where
  getPackageInfo := fun _ _ _ => .error "registry down"
  getSecurityInfo := fun _ _ _ => .error "security feed down"
  getTrustInfo := fun _ _ _ => .error "trust service down"

/-- A relationship record whose source matches no component of
`sbomOneEdge`. -/
def danglingDep : Dep :=
  { source := some "X@9.9", target := some "A@1.0" }

/-- A sample analysed node with neutral data, used to instantiate theorems
with hypotheses. -/
def sampleNode : SCNode :=
  { id := "A@1.0", name := some "A", version := some "1.0"
    package_manager := "unknown", dependency_type := .direct
    trust_level := .neutral, risk_score := 2
    maintainer_info := none, repository_info := none
    security_metrics := none, metadata := {} }

/-- A sample structural-analysis result with one cycle and one orphan. -/
def sampleResults : GraphResults :=
  { max_depth := 1, average_degree := 1
    risk_distribution := [], trust_distribution := []
    critical_paths := [], vulnerable_paths := []
    orphaned_dependencies := ["B@2.0"]
    circular_dependencies := [["A@1.0", "B@2.0"]]
    single_points_of_failure := [] }

/-! Theorems. -/

/-- Clamping a nonnegative quantity from above at 10 agrees with the
symmetric clamp to [0, 10]. -/
theorem clamp_eq_of_nonneg (x : ℚ) (hx : 0 ≤ x) : min x 10 = max 0 (min 10 x) := by
  rw [min_comm, max_eq_right (le_min (by norm_num) hx)]

/-- The pre-clamp risk sum is a sum of nonnegative terms. -/
theorem nodeRisk_eq_claim (a : NodeAttrs) (dOpt : Option ℕ) :
    nodeRiskScoreOfDepth a dOpt =
      nodeRiskClaim ((a.security_info.getD {}).critical_vulnerabilities.getD 0)
        ((a.security_info.getD {}).vulnerability_count.getD 0)
        ((a.registry_info.getD {}).age_days.getD 365)
        ((a.registry_info.getD {}).downloads.getD 0)
        ((a.registry_info.getD {}).maintainers.getD []).length dOpt := by
  rcases dOpt with _ | d <;>
  · simp only [nodeRiskScoreOfDepth, nodeRiskClaim]
    refine clamp_eq_of_nonneg _ ?_
    refine add_nonneg (add_nonneg (add_nonneg (add_nonneg ?_ ?_) ?_) ?_) ?_
    · positivity
    · split_ifs <;> norm_num
    · split_ifs <;> norm_num
    · split_ifs <;> norm_num
    · norm_num

/-- The C3 scenario node scores at least 4 whatever its graph depth is. -/
theorem crit2_lower (dOpt : Option ℕ) : 4 ≤ nodeRiskScoreOfDepth crit2Attrs dOpt := by
  rcases dOpt with _ | d
  · norm_num [nodeRiskScoreOfDepth, crit2Attrs]
  · simp only [nodeRiskScoreOfDepth, crit2Attrs, le_min_iff]
    norm_num
    have : (0:ℚ) ≤ (d : ℚ) * (1/10) := by positivity
    linarith

/-- C3: the per-node risk score equals the claimed weighted sum — critical
vulnerabilities times 2.0, vulnerability count times 0.5, the age penalty
(the source's `> 2000` days, its own comment's reading of "older than 5
years"), the popularity penalty, the maintainer-count penalty and 0.1 per
unit of shortest-path distance from the arbitrarily chosen first node —
clamped to [0, 10]; and a component with `critical_vulnerabilities = 2` and
otherwise-default enrichment data scores at least 4.0. -/
theorem C3_node_risk_score_formula :
    (∀ (a : NodeAttrs) (g : DiGraph) (v : String),
        calculateNodeRiskScore a g v =
          nodeRiskClaim ((a.security_info.getD {}).critical_vulnerabilities.getD 0)
            ((a.security_info.getD {}).vulnerability_count.getD 0)
            ((a.registry_info.getD {}).age_days.getD 365)
            ((a.registry_info.getD {}).downloads.getD 0)
            ((a.registry_info.getD {}).maintainers.getD []).length
            (depthOpt g v)) ∧
    (∀ (g : DiGraph) (v : String), 4 ≤ calculateNodeRiskScore crit2Attrs g v) := by
  constructor
  · intro a g v
    exact nodeRisk_eq_claim a (depthOpt g v)
  · intro g v
    exact crit2_lower (depthOpt g v)

/-- C8: increasing only the critical-vulnerability count never decreases the
computed risk score. -/
theorem C8_risk_monotone_in_critical_vulns (a : NodeAttrs) (si : SecurityInfo)
    (g : DiGraph) (v : String) (c₁ c₂ : ℕ) (h : c₁ < c₂) :
    calculateNodeRiskScore
        { a with security_info := some { si with critical_vulnerabilities := some c₁ } } g v ≤
      calculateNodeRiskScore
        { a with security_info := some { si with critical_vulnerabilities := some c₂ } } g v := by
  simp only [calculateNodeRiskScore, nodeRiskScoreOfDepth, Option.getD_some]
  gcongr

/-- Witness for C8 at concrete inputs. -/
theorem C8_witness :
    0 < 1 ∧
      calculateNodeRiskScore
          { ({} : NodeAttrs) with
            security_info := some { ({} : SecurityInfo) with critical_vulnerabilities := some 0 } }
          DiGraph.empty "x" ≤
        calculateNodeRiskScore
          { ({} : NodeAttrs) with
            security_info := some { ({} : SecurityInfo) with critical_vulnerabilities := some 1 } }
          DiGraph.empty "x" :=
  ⟨by norm_num,
   C8_risk_monotone_in_critical_vulns {} {} DiGraph.empty "x" 0 1 (by norm_num)⟩

/-- C10: trust-level classification applies its rules in the claimed fixed
precedence order (signature, then reputation thresholds, then incident
count, else neutral), with the source's defaults for absent data. -/
theorem C10_trust_level_precedence (a : NodeAttrs) :
    calculateTrustLevel a =
      trustLevelClaim ((a.trust_info.getD {}).signed.getD false)
        ((a.trust_info.getD {}).maintainer_reputation.getD (1/2))
        ((a.trust_info.getD {}).security_incidents.getD 0) := rfl

/-- A guarded penalty term of `_calculate_supply_chain_score` equals the
unguarded product. -/
theorem guardedPenalty (l : List α) (w : ℚ) :
    (if l.isEmpty then (0:ℚ) else (l.length : ℚ) * w) = (l.length : ℚ) * w := by
  cases l <;> simp

/-- C2: for a non-empty node list the aggregate score is exactly
`clamp(base − total_penalties, 0, 10)` with the claimed weights, clamped
once at the end. -/
theorem C2_supply_chain_score_formula (nodes : List SCNode)
    (results : GraphResults) (h : nodes ≠ []) :
    calculateSupplyChainScore nodes results = supplyChainScoreClaim nodes results := by
  simp only [calculateSupplyChainScore, supplyChainScoreClaim, guardedPenalty]
  rw [if_neg (by simpa using h)]
  simp only [List.length_map]
  congr 2
  ring

/-- Witness for C2 at concrete inputs. -/
theorem C2_witness :
    [sampleNode] ≠ [] ∧
      calculateSupplyChainScore [sampleNode] sampleResults =
        supplyChainScoreClaim [sampleNode] sampleResults :=
  ⟨by simp, C2_supply_chain_score_formula [sampleNode] sampleResults (by simp)⟩

/-- Adding an edge between two existing nodes leaves the node list alone. -/
theorem addEdge_nodes (g : DiGraph) (s t : String) (e : EdgeAttrs)
    (hs : g.hasNode s = true) (ht : g.hasNode t = true) :
    (g.addEdge s t e).nodes = g.nodes := by
  simp only [DiGraph.addEdge, hs, ht, if_true]
  split <;> rfl

/-- One iteration of the edge loop never changes the node list. -/
theorem edgeStep_nodes (g : DiGraph) (d : Dep) : (edgeStep g d).nodes = g.nodes := by
  unfold edgeStep
  split
  case isTrue h =>
    simp only [edgeAddable, Bool.and_eq_true] at h
    exact addEdge_nodes _ _ _ _ h.1.2 h.2
  case isFalse _ => rfl

/-- The whole edge loop never changes the node list. -/
theorem foldl_edgeStep_nodes (ds : List Dep) (g : DiGraph) :
    (ds.foldl edgeStep g).nodes = g.nodes := by
  induction ds generalizing g with
  | nil => rfl
  | cons d ds ih => rw [List.foldl_cons, ih, edgeStep_nodes]

/-- Node membership is invariant under the edge loop. -/
theorem hasNode_foldl_edgeStep (ds : List Dep) (g : DiGraph) (v : String) :
    (ds.foldl edgeStep g).hasNode v = g.hasNode v := by
  unfold DiGraph.hasNode
  rw [foldl_edgeStep_nodes]

/-- Adding a component node never changes the edge list. -/
theorem addComponentNode_edges (g : DiGraph) (a : NodeAttrs) :
    (addComponentNode g a).edges = g.edges := by
  unfold addComponentNode DiGraph.addNode
  split <;> rfl

/-- The node loop never changes the edge list. -/
theorem foldl_addComponentNode_edges (cs : List NodeAttrs) (g : DiGraph) :
    (cs.foldl addComponentNode g).edges = g.edges := by
  induction cs generalizing g with
  | nil => rfl
  | cons c cs ih => rw [List.foldl_cons, ih, addComponentNode_edges]

/-- The component graph has no edges yet. -/
theorem componentGraph_edges (sbom : Sbom) : (componentGraph sbom).edges = [] :=
  foldl_addComponentNode_edges _ _

/-- A node update rewrites attribute dictionaries only, never identifiers. -/
theorem applyUpdate_map_fst (ns : List (String × NodeAttrs))
    (u : String × EnrichedData) :
    (applyUpdate ns u).map Prod.fst = ns.map Prod.fst := by
  simp only [applyUpdate, List.map_map]
  refine List.map_congr_left fun p _ => ?_
  by_cases h : p.1 = u.1 <;> simp [h]

/-- A sequence of node updates never changes the identifier list. -/
theorem foldl_applyUpdate_map_fst (us : List (String × EnrichedData))
    (ns : List (String × NodeAttrs)) :
    (us.foldl applyUpdate ns).map Prod.fst = ns.map Prod.fst := by
  induction us generalizing ns with
  | nil => rfl
  | cons u us ih => rw [List.foldl_cons, ih, applyUpdate_map_fst]

/-- Batched node updates never change the identifier list. -/
theorem foldl_batches_map_fst (bss : List (List (String × EnrichedData)))
    (ns : List (String × NodeAttrs)) :
    (bss.foldl (fun ns b => b.foldl applyUpdate ns) ns).map Prod.fst =
      ns.map Prod.fst := by
  induction bss generalizing ns with
  | nil => rfl
  | cons b bss ih => rw [List.foldl_cons, ih, foldl_applyUpdate_map_fst]

/-- Enrichment preserves the node identifier list. -/
theorem enrich_nodeIds (env : Enrichment) (g : DiGraph) :
    (enrichDependencyGraph env g).nodeIds = g.nodeIds :=
  foldl_batches_map_fst _ _

/-- Enrichment preserves the edge list. -/
theorem enrich_edges (env : Enrichment) (g : DiGraph) :
    (enrichDependencyGraph env g).edges = g.edges := rfl

/-- Node membership through the identifier list. -/
theorem hasNode_eq_nodeIds (g : DiGraph) (v : String) :
    g.hasNode v = g.nodeIds.any (fun x => x = v) := by
  unfold DiGraph.hasNode DiGraph.nodeIds
  induction g.nodes with
  | nil => rfl
  | cons p ps ih => simp [ih]

/-- Enrichment preserves node membership. -/
theorem hasNode_enrich (env : Enrichment) (g : DiGraph) (v : String) :
    (enrichDependencyGraph env g).hasNode v = g.hasNode v := by
  rw [hasNode_eq_nodeIds, hasNode_eq_nodeIds, enrich_nodeIds]

/-- `add_node` makes its identifier present. -/
theorem hasNode_addNode_self (g : DiGraph) (v : String) (a : NodeAttrs) :
    (g.addNode v a).hasNode v = true := by
  unfold DiGraph.addNode
  split
  case isTrue h =>
    unfold DiGraph.hasNode at h ⊢
    rw [List.any_eq_true] at h ⊢
    obtain ⟨p, hp, hpv⟩ := h
    simp only [decide_eq_true_eq] at hpv
    exact ⟨(v, a), List.mem_map.mpr ⟨p, hp, by simp [hpv]⟩, by simp⟩
  case isFalse _ =>
    unfold DiGraph.hasNode
    simp

/-- `add_node` keeps every already-present identifier present. -/
theorem hasNode_addNode_mono (g : DiGraph) (w : String) (b : NodeAttrs)
    (v : String) (h : g.hasNode v = true) : (g.addNode w b).hasNode v = true := by
  unfold DiGraph.addNode
  split
  case isTrue hw =>
    unfold DiGraph.hasNode at h ⊢
    rw [List.any_eq_true] at h ⊢
    obtain ⟨p, hp, hpv⟩ := h
    simp only [decide_eq_true_eq] at hpv
    by_cases hpw : p.1 = w
    · exact ⟨(w, b), List.mem_map.mpr ⟨p, hp, by simp [hpw]⟩, by simp [← hpw, hpv]⟩
    · exact ⟨p, List.mem_map.mpr ⟨p, hp, by simp [hpw]⟩, by simp [hpv]⟩
  case isFalse _ =>
    unfold DiGraph.hasNode at h ⊢
    simp [List.any_append, h]

/-- The node loop keeps every already-present identifier present. -/
theorem hasNode_foldl_addComponentNode_mono (cs : List NodeAttrs) (g : DiGraph)
    (v : String) (h : g.hasNode v = true) :
    (cs.foldl addComponentNode g).hasNode v = true := by
  induction cs generalizing g with
  | nil => exact h
  | cons c cs ih =>
    rw [List.foldl_cons]
    exact ih _ (hasNode_addNode_mono _ _ _ _ h)

/-- Every extracted component's identifier ends up as a node of the node
loop's result. -/
theorem hasNode_foldl_addComponentNode_of_mem (cs : List NodeAttrs)
    (g : DiGraph) (a : NodeAttrs) (ha : a ∈ cs) :
    (cs.foldl addComponentNode g).hasNode (nodeIdOf a) = true := by
  induction cs generalizing g with
  | nil => cases ha
  | cons c cs ih =>
    rw [List.foldl_cons]
    rcases List.mem_cons.mp ha with rfl | ha'
    · exact hasNode_foldl_addComponentNode_mono cs _ _ (hasNode_addNode_self g _ a)
    · exact ih _ ha'

/-- The base builder is the edge loop applied after the node loop. -/
theorem buildGraphBase_eq (sbom : Sbom) :
    buildGraphBase sbom = (extractDependencies sbom).foldl edgeStep (componentGraph sbom) := rfl

/-- C5 counterexample: for a component with a missing `name`, the node is
created under `None@1.0` — the Python `None` rendered by the f-string — and
not under the `@1.0` identifier the claim's empty-string substitution would
produce. -/
theorem C5_counterexample :
    (buildDependencyGraph stubEnv sbomMissingName).nodeIds = ["None@1.0"] ∧
      (buildDependencyGraph stubEnv sbomMissingName).hasNode "@1.0" = false := by
  constructor <;> rfl

/-- C5 amended: a component record with a missing name or version still
becomes a node, with the missing field rendered as the string `None` inside
the `name@version` identifier, and no error is raised. -/
theorem C5_missing_fields_become_None_nodes (env : Enrichment) (sbom : Sbom)
    (a : NodeAttrs) (ha : a ∈ extractComponents sbom) :
    (buildDependencyGraph env sbom).hasNode (pyStr a.name ++ "@" ++ pyStr a.version) = true := by
  unfold buildDependencyGraph
  rw [hasNode_enrich, buildGraphBase_eq, hasNode_foldl_edgeStep]
  exact hasNode_foldl_addComponentNode_of_mem _ _ _ ha

/-- Witness for C5's amended statement on the nameless component. -/
theorem C5_witness :
    missingNameAttrs ∈ extractComponents sbomMissingName ∧
      (buildDependencyGraph stubEnv sbomMissingName).hasNode
        (pyStr missingNameAttrs.name ++ "@" ++ pyStr missingNameAttrs.version) = true :=
  ⟨by decide,
   C5_missing_fields_become_None_nodes stubEnv sbomMissingName missingNameAttrs (by decide)⟩

/-- A passing edge guard implies both endpoint references match nodes. -/
theorem bothEndpointsMatch_of_edgeAddable (g : DiGraph) (d : Dep)
    (h : edgeAddable g d = true) : bothEndpointsMatch g d = true := by
  simp only [edgeAddable, Bool.and_eq_true] at h
  obtain ⟨⟨⟨hs, ht⟩, hns⟩, hnt⟩ := h
  unfold bothEndpointsMatch
  rcases hsrc : d.source with _ | s
  · rw [hsrc] at hs; cases hs
  · rcases htgt : d.target with _ | t
    · rw [htgt] at ht; cases ht
    · have hns' : g.hasNode s = true := by simpa [hsrc] using hns
      have hnt' : g.hasNode t = true := by simpa [htgt] using hnt
      simp [hns', hnt']

/-- The edge guard only reads the node set. -/
theorem edgeAddable_congr (g g' : DiGraph) (d : Dep) (h : g.nodes = g'.nodes) :
    edgeAddable g d = edgeAddable g' d := by
  unfold edgeAddable DiGraph.hasNode
  rw [h]

/-- One edge-loop iteration only reads the node set. -/
theorem hasNode_edgeStep (g : DiGraph) (d : Dep) (v : String) :
    (edgeStep g d).hasNode v = g.hasNode v := by
  unfold DiGraph.hasNode
  rw [edgeStep_nodes]

/-- One edge-loop iteration only stores edges whose endpoints are nodes. -/
theorem edgeStep_edges_endpoints (g : DiGraph) (d : Dep)
    (hinv : ∀ y ∈ g.edges, g.hasNode y.1 = true ∧ g.hasNode y.2.1 = true) :
    ∀ y ∈ (edgeStep g d).edges, g.hasNode y.1 = true ∧ g.hasNode y.2.1 = true := by
  intro y hy
  unfold edgeStep at hy
  split at hy
  case isTrue h =>
    simp only [edgeAddable, Bool.and_eq_true] at h
    obtain ⟨⟨⟨hs, ht⟩, hns⟩, hnt⟩ := h
    simp only [DiGraph.addEdge, hns, hnt, if_true] at hy
    split at hy
    case isTrue _ =>
      obtain ⟨y₀, hy₀, rfl⟩ := List.mem_map.mp hy
      by_cases hk : (y₀.1 = d.source.getD "" && y₀.2.1 = d.target.getD "") = true
      · rw [if_pos hk]
        exact ⟨hns, hnt⟩
      · rw [if_neg hk]
        exact hinv y₀ hy₀
    case isFalse _ =>
      rcases List.mem_append.mp hy with hold | hnew
      · exact hinv y hold
      · rw [List.mem_singleton.mp hnew]
        exact ⟨hns, hnt⟩
  case isFalse _ => exact hinv y hy

/-- Every edge stored during the edge loop has both endpoints present. -/
theorem edges_endpoints_present (ds : List Dep) (g : DiGraph)
    (x : String × String × EdgeAttrs)
    (hinv : ∀ y ∈ g.edges, g.hasNode y.1 = true ∧ g.hasNode y.2.1 = true)
    (hx : x ∈ (ds.foldl edgeStep g).edges) :
    g.hasNode x.1 = true ∧ g.hasNode x.2.1 = true := by
  induction ds generalizing g with
  | nil => exact hinv x hx
  | cons d ds ih =>
    rw [List.foldl_cons] at hx
    have hinv' : ∀ y ∈ (edgeStep g d).edges,
        (edgeStep g d).hasNode y.1 = true ∧ (edgeStep g d).hasNode y.2.1 = true := by
      intro y hy
      rw [hasNode_edgeStep, hasNode_edgeStep]
      exact edgeStep_edges_endpoints g d hinv y hy
    have h' := ih (edgeStep g d) hinv' hx
    rw [hasNode_edgeStep, hasNode_edgeStep] at h'
    exact h'

/-- C6: a relationship record whose endpoints do not both match existing
node identifiers is silently dropped — the edge loop's result is exactly the
result without that record — and conversely every stored edge's endpoints
are nodes of the built graph. -/
theorem C6_dangling_edges_dropped :
    (∀ (g : DiGraph) (ds₁ ds₂ : List Dep) (d : Dep),
        bothEndpointsMatch g d = false →
        (ds₁ ++ d :: ds₂).foldl edgeStep g = (ds₁ ++ ds₂).foldl edgeStep g) ∧
    (∀ (env : Enrichment) (sbom : Sbom) (x : String × String × EdgeAttrs),
        x ∈ (buildDependencyGraph env sbom).edges →
        (buildDependencyGraph env sbom).hasNode x.1 = true ∧
          (buildDependencyGraph env sbom).hasNode x.2.1 = true) := by
  constructor
  · intro g ds₁ ds₂ d hmatch
    rw [List.foldl_append, List.foldl_append, List.foldl_cons]
    have hstep : edgeStep (ds₁.foldl edgeStep g) d = ds₁.foldl edgeStep g := by
      unfold edgeStep
      rw [if_neg]
      intro haddable
      have := bothEndpointsMatch_of_edgeAddable _ _
        ((edgeAddable_congr _ g d (foldl_edgeStep_nodes ds₁ g)) ▸ haddable)
      rw [hmatch] at this
      cases this
    rw [hstep]
  · intro env sbom x hx
    unfold buildDependencyGraph at hx ⊢
    rw [enrich_edges, buildGraphBase_eq] at hx
    rw [hasNode_enrich, hasNode_enrich, buildGraphBase_eq,
      hasNode_foldl_edgeStep, hasNode_foldl_edgeStep]
    exact edges_endpoints_present _ _ x
      (by rw [componentGraph_edges]; intro y hy; cases hy) hx

/-- Witness for C6 on a dangling relationship record. -/
theorem C6_witness :
    bothEndpointsMatch (componentGraph sbomOneEdge) danglingDep = false ∧
      ([] ++ danglingDep :: []).foldl edgeStep (componentGraph sbomOneEdge) =
        ([] ++ []).foldl edgeStep (componentGraph sbomOneEdge) :=
  ⟨by decide,
   C6_dangling_edges_dropped.1 (componentGraph sbomOneEdge) [] [] danglingDep (by decide)⟩

/-- Membership of an edge key in the stored key list equals the membership
test `_build_dependency_graph` performs through `add_edge`. -/
theorem contains_map_edgeKey (es : List (String × String × EdgeAttrs))
    (s t : String) :
    (es.map edgeKey).contains (s, t) = es.any (fun x => x.1 = s && x.2.1 = t) := by
  rw [Bool.eq_iff_iff]
  constructor
  · intro h
    obtain ⟨x, hx, hkey⟩ := List.mem_map.mp (List.elem_iff.mp h)
    refine List.any_eq_true.mpr ⟨x, hx, ?_⟩
    have h1 : x.1 = s := congrArg Prod.fst hkey
    have h2 : x.2.1 = t := congrArg (fun p => p.2) hkey
    simp [h1, h2]
  · intro h
    obtain ⟨x, hx, hcond⟩ := List.any_eq_true.mp h
    simp only [Bool.and_eq_true, decide_eq_true_eq] at hcond
    exact List.elem_iff.mpr (List.mem_map.mpr ⟨x, hx, by simp [edgeKey, hcond.1, hcond.2]⟩)

/-- Overwriting the attributes of an existing edge keeps the key list. -/
theorem map_edgeKey_replace (es : List (String × String × EdgeAttrs))
    (s t : String) (e : EdgeAttrs) :
    ((es.map (fun x =>
        if (decide (x.1 = s) && decide (x.2.1 = t)) = true then (s, t, e) else x)).map edgeKey) =
      es.map edgeKey := by
  rw [List.map_map]
  refine List.map_congr_left fun x _ => ?_
  simp only [Function.comp]
  split
  case isTrue hc =>
    obtain ⟨h1, h2⟩ : x.1 = s ∧ x.2.1 = t := by simpa using hc
    simp [edgeKey, h1, h2]
  case isFalse _ => rfl

/-- Key list of `add_edge` between existing nodes: unchanged when the
ordered pair is already present, appended otherwise. -/
theorem addEdge_keys (g : DiGraph) (s t : String) (e : EdgeAttrs)
    (hs : g.hasNode s = true) (ht : g.hasNode t = true) :
    (g.addEdge s t e).edges.map edgeKey =
      if (g.edges.map edgeKey).contains (s, t) then g.edges.map edgeKey
      else g.edges.map edgeKey ++ [(s, t)] := by
  simp only [DiGraph.addEdge, hs, ht, if_true]
  rw [contains_map_edgeKey]
  split
  case isTrue h => exact map_edgeKey_replace g.edges s t e
  case isFalse h => simp [edgeKey]

/-- The edge-guard outcomes do not change along the edge loop. -/
theorem validEdgeKeys_edgeStep (g : DiGraph) (d : Dep) (ds : List Dep) :
    validEdgeKeys (edgeStep g d) ds = validEdgeKeys g ds := by
  unfold validEdgeKeys
  congr 1
  funext d'
  rw [edgeAddable_congr (edgeStep g d) g d' (edgeStep_nodes g d)]

/-- The stored edge-key list after the edge loop is the first-occurrence
deduplication of the guard-passing record keys, appended to what was there. -/
theorem foldl_edgeStep_keys (ds : List Dep) (g : DiGraph) :
    (ds.foldl edgeStep g).edges.map edgeKey =
      dedupAppend (g.edges.map edgeKey) (validEdgeKeys g ds) := by
  induction ds generalizing g with
  | nil => rfl
  | cons d ds ih =>
    rw [List.foldl_cons, ih (edgeStep g d), validEdgeKeys_edgeStep]
    by_cases h : edgeAddable g d = true
    · have hstep : edgeStep g d = g.addEdge (d.source.getD "") (d.target.getD "")
          { typ := some d.typ, version_constraint := none } := by
        unfold edgeStep
        rw [if_pos h]
      have hguards := h
      simp only [edgeAddable, Bool.and_eq_true] at hguards
      rw [hstep, addEdge_keys _ _ _ _ hguards.1.2 hguards.2]
      have hvalid : validEdgeKeys g (d :: ds) =
          (d.source.getD "", d.target.getD "") :: validEdgeKeys g ds := by
        unfold validEdgeKeys
        rw [List.filterMap_cons, if_pos h]
      rw [hvalid]
      unfold dedupAppend
      rw [List.foldl_cons]
    · have hstep : edgeStep g d = g := by
        unfold edgeStep
        rw [if_neg h]
      have hvalid : validEdgeKeys g (d :: ds) = validEdgeKeys g ds := by
        unfold validEdgeKeys
        rw [List.filterMap_cons, if_neg h]
      rw [hstep, hvalid]

/-- C4 counterexample: an SBOM with three `dependsOn` entries — a duplicated
pair and a self-loop — yields a graph with only two stored edges, so the
edge list does not contain one edge per SBOM entry. -/
theorem C4_counterexample :
    (extractDependencies sbomDupEdges).length = 3 ∧
      (buildDependencyGraph stubEnv sbomDupEdges).edges.length = 2 :=
  ⟨rfl, rfl⟩

/-- Node membership phrased through the identifier list. -/
theorem hasNode_iff_mem_nodeIds (g : DiGraph) (v : String) :
    g.hasNode v = true ↔ v ∈ g.nodeIds := by
  simp only [DiGraph.hasNode, DiGraph.nodeIds, List.any_eq_true, decide_eq_true_eq,
    List.mem_map]

/-- `add_node` keeps the identifier list, or appends the fresh identifier. -/
theorem addNode_nodeIds (g : DiGraph) (v : String) (a : NodeAttrs) :
    (g.addNode v a).nodeIds = if g.hasNode v then g.nodeIds else g.nodeIds ++ [v] := by
  unfold DiGraph.addNode DiGraph.nodeIds
  split
  case isTrue h =>
    rw [List.map_map]
    refine List.map_congr_left fun p _ => ?_
    by_cases hp : p.1 = v <;> simp [hp]
  case isFalse h => simp

/-- `add_node` preserves distinctness of the identifiers. -/
theorem nodup_nodeIds_addNode (g : DiGraph) (v : String) (a : NodeAttrs)
    (hnd : g.nodeIds.Nodup) : (g.addNode v a).nodeIds.Nodup := by
  rw [addNode_nodeIds]
  split
  case isTrue _ => exact hnd
  case isFalse h =>
    have hv : v ∉ g.nodeIds := fun hmem => h ((hasNode_iff_mem_nodeIds g v).mpr hmem)
    simp [List.nodup_append, hnd, hv]

/-- The node loop keeps identifiers pairwise distinct. -/
theorem nodup_nodeIds_foldl_addComponentNode (cs : List NodeAttrs) (g : DiGraph)
    (hnd : g.nodeIds.Nodup) : (cs.foldl addComponentNode g).nodeIds.Nodup := by
  induction cs generalizing g with
  | nil => exact hnd
  | cons c cs ih =>
    rw [List.foldl_cons]
    exact ih _ (nodup_nodeIds_addNode _ _ _ hnd)

/-- The component graph has pairwise-distinct node identifiers. -/
theorem componentGraph_nodup (sbom : Sbom) : (componentGraph sbom).nodeIds.Nodup :=
  nodup_nodeIds_foldl_addComponentNode _ _ (by simp [DiGraph.empty, DiGraph.nodeIds])

/-- The built graph's node identifiers are those of the component graph. -/
theorem build_nodeIds (env : Enrichment) (sbom : Sbom) :
    (buildDependencyGraph env sbom).nodeIds = (componentGraph sbom).nodeIds := by
  unfold buildDependencyGraph
  rw [enrich_nodeIds, buildGraphBase_eq]
  unfold DiGraph.nodeIds
  rw [foldl_edgeStep_nodes]

/-- The built graph's node identifiers are pairwise distinct. -/
theorem build_nodup (env : Enrichment) (sbom : Sbom) :
    (buildDependencyGraph env sbom).nodeIds.Nodup := by
  rw [build_nodeIds]
  exact componentGraph_nodup sbom

/-- First-occurrence deduplication introduces no new elements. -/
theorem mem_dedupAppend [BEq α] : ∀ (l seen : List α) (x : α),
    x ∈ dedupAppend seen l → x ∈ seen ∨ x ∈ l := by
  intro l
  induction l with
  | nil => intro seen x hx; exact Or.inl hx
  | cons y l ih =>
    intro seen x hx
    have hx' : x ∈ dedupAppend (if seen.contains y then seen else seen ++ [y]) l := hx
    rcases ih _ x hx' with h | h
    · split at h
      · exact Or.inl h
      · rcases List.mem_append.mp h with h' | h'
        · exact Or.inl h'
        · exact Or.inr (by rw [List.mem_singleton.mp h']; exact List.mem_cons_self y l)
    · exact Or.inr (List.mem_cons_of_mem _ h)

/-- Every guard-passing key's source is a node. -/
theorem validEdgeKeys_fst_hasNode (g : DiGraph) (ds : List Dep) :
    ∀ k ∈ validEdgeKeys g ds, g.hasNode k.1 = true := by
  intro k hk
  unfold validEdgeKeys at hk
  obtain ⟨d, hd, hmk⟩ := List.mem_filterMap.mp hk
  split at hmk
  case isTrue h =>
    simp only [edgeAddable, Bool.and_eq_true] at h
    cases hmk
    exact h.1.2
  case isFalse _ => cases hmk

/-- Congruence of `flatMap` over the members of the list. -/
theorem flatMap_congr_mem (l : List α) (f g : α → List β)
    (h : ∀ a ∈ l, f a = g a) : l.flatMap f = l.flatMap g := by
  induction l with
  | nil => rfl
  | cons a l ih =>
    rw [List.flatMap_cons, List.flatMap_cons, h a (List.mem_cons_self a l),
      ih (fun b hb => h b (List.mem_cons_of_mem a hb))]

/-- Grouping a key list by pairwise-distinct sources that cover every key is
a permutation of the key list. -/
theorem perm_groupBy : ∀ (ids : List String) (K : List (String × String)),
    ids.Nodup → (∀ k ∈ K, k.1 ∈ ids) →
    (ids.flatMap (fun u => K.filter (fun k => k.1 = u))).Perm K := by
  intro ids
  induction ids with
  | nil =>
    intro K _ hall
    have hK : K = [] := by
      cases K with
      | nil => rfl
      | cons k K => exact absurd (hall k (List.mem_cons_self k K)) (List.not_mem_nil _)
    subst hK
    simp
  | cons u rest ih =>
    intro K hnd hall
    rw [List.nodup_cons] at hnd
    rw [List.flatMap_cons]
    refine List.Perm.trans (List.Perm.append_left _ ?_)
      (List.filter_append_perm (fun k => k.1 = u) K)
    have hcongr : rest.flatMap (fun w => K.filter (fun k => k.1 = w)) =
        rest.flatMap (fun w =>
          (K.filter (fun x => !(decide (x.1 = u)))).filter (fun k => k.1 = w)) := by
      refine flatMap_congr_mem _ _ _ (fun w hw => ?_)
      have hwu : w ≠ u := fun e => hnd.1 (e ▸ hw)
      rw [List.filter_filter]
      refine List.filter_congr fun k _ => ?_
      by_cases hkw : k.1 = w <;> simp [hkw, hwu]
    rw [hcongr]
    refine ih (K.filter (fun x => !(decide (x.1 = u)))) hnd.2 (fun k hk => ?_)
    have hkK : k ∈ K := List.mem_of_mem_filter hk
    have hne : ¬(k.1 = u) := by simpa using List.of_mem_filter hk
    rcases List.mem_cons.mp (hall k hkK) with h | h
    · exact absurd h hne
    · exact h

/-- `flatMap` over the identifier list, unfolded to the node list. -/
theorem nodeIds_flatMap_eq (g : DiGraph) (F : String → List β) :
    g.nodeIds.flatMap F = g.nodes.flatMap (fun p => F p.1) := by
  have h : ∀ (ns : List (String × NodeAttrs)),
      (ns.map (fun p => p.1)).flatMap F = ns.flatMap (fun p => F p.1) := by
    intro ns
    induction ns with
    | nil => rfl
    | cons p ps ih => rw [List.map_cons, List.flatMap_cons, List.flatMap_cons, ih]
  exact h g.nodes

/-- The keys of the `graph.edges()` iteration are the stored keys regrouped
by source node. -/
theorem edgeList_keys (g : DiGraph) :
    g.edgeList.map edgeKey =
      g.nodeIds.flatMap (fun u => (g.edges.map edgeKey).filter (fun k => k.1 = u)) := by
  rw [nodeIds_flatMap_eq]
  unfold DiGraph.edgeList
  rw [List.map_flatMap]
  refine flatMap_congr_mem _ _ _ (fun p _ => ?_)
  rw [List.filter_map]
  rfl

/-- C4 amended: duplicate `(source, target)` entries are collapsed — the
graph stores at most one edge per ordered pair, later duplicates only
overwriting its attributes — while self-loops are kept; the edge list the
analysis iterates (`graph.edges()`) lists, for each node in insertion order,
that node's distinct outgoing pairs in first-insertion order, and as a whole
is a permutation of the first-occurrence deduplication of the guard-passing
SBOM entries, so each distinct pair is counted exactly once. -/
theorem C4_duplicate_edges_are_collapsed (env : Enrichment) (sbom : Sbom) :
    (buildDependencyGraph env sbom).edgeList.map edgeKey =
      (buildDependencyGraph env sbom).nodeIds.flatMap (fun u =>
        (firstDedup (validEdgeKeys (componentGraph sbom)
          (extractDependencies sbom))).filter (fun k => k.1 = u)) ∧
    ((buildDependencyGraph env sbom).edgeList.map edgeKey).Perm
      (firstDedup (validEdgeKeys (componentGraph sbom) (extractDependencies sbom))) := by
  have hkeys : (buildDependencyGraph env sbom).edges.map edgeKey =
      firstDedup (validEdgeKeys (componentGraph sbom) (extractDependencies sbom)) := by
    unfold buildDependencyGraph
    rw [enrich_edges, buildGraphBase_eq, foldl_edgeStep_keys, componentGraph_edges]
    rfl
  have hgrouped : (buildDependencyGraph env sbom).edgeList.map edgeKey =
      (buildDependencyGraph env sbom).nodeIds.flatMap (fun u =>
        (firstDedup (validEdgeKeys (componentGraph sbom)
          (extractDependencies sbom))).filter (fun k => k.1 = u)) := by
    rw [edgeList_keys, hkeys]
  refine ⟨hgrouped, ?_⟩
  rw [hgrouped]
  refine perm_groupBy _ _ (build_nodup env sbom) (fun k hk => ?_)
  have hvalid : k ∈ validEdgeKeys (componentGraph sbom) (extractDependencies sbom) := by
    rcases mem_dedupAppend _ _ k hk with h | h
    · exact absurd h (List.not_mem_nil k)
    · exact h
  have hhas := validEdgeKeys_fst_hasNode _ _ k hvalid
  rw [build_nodeIds]
  exact (hasNode_iff_mem_nodeIds _ _).mp hhas

/-- Flattening the batches recovers the task list. -/
theorem chunksAux_flatten (bs : ℕ) (hbs : 0 < bs) :
    ∀ (fuel : ℕ) (l : List α), l.length ≤ fuel → (chunksAux bs fuel l).flatten = l := by
  intro fuel
  induction fuel with
  | zero =>
    intro l hl
    cases l with
    | nil => rfl
    | cons x xs => simp at hl
  | succ fuel ih =>
    intro l hl
    cases l with
    | nil => rfl
    | cons x xs =>
      show ((x :: xs).take bs :: chunksAux bs fuel ((x :: xs).drop bs)).flatten = x :: xs
      rw [List.flatten_cons, ih ((x :: xs).drop bs) ?_, List.take_append_drop]
      have hlen : ((x :: xs).drop bs).length = (x :: xs).length - bs :=
        List.length_drop bs (x :: xs)
      simp only [List.length_cons] at hlen hl
      omega

theorem chunks_flatten (bs : ℕ) (hbs : 0 < bs) (l : List α) :
    (chunks bs l).flatten = l :=
  chunksAux_flatten bs hbs l.length l le_rfl

/-- A fold over batches of a fold is a fold over the flattened list. -/
theorem foldl_batches_eq_flatten (f : β → α → β) :
    ∀ (ls : List (List α)) (init : β),
      ls.foldl (fun acc l => l.foldl f acc) init = ls.flatten.foldl f init := by
  intro ls
  induction ls with
  | nil => intro init; rfl
  | cons l ls ih =>
    intro init
    rw [List.foldl_cons, ih, List.flatten_cons, List.foldl_append]

/-- The sequence of node updates, resolved: every entry collects exactly the
updates addressed to its identifier, in order. -/
theorem foldl_applyUpdate_eq_filter (us : List (String × EnrichedData)) :
    ∀ (ns : List (String × NodeAttrs)),
      us.foldl applyUpdate ns =
        ns.map (fun p => (p.1,
          (us.filter (fun u => u.1 = p.1)).foldl (fun a u => mergeEnriched a u.2) p.2)) := by
  induction us with
  | nil => intro ns; simp
  | cons u us ih =>
    intro ns
    rw [List.foldl_cons, ih (applyUpdate ns u)]
    unfold applyUpdate
    rw [List.map_map]
    refine List.map_congr_left fun p _ => ?_
    by_cases h : p.1 = u.1
    · have h' : u.1 = p.1 := h.symm
      simp [Function.comp, if_pos h, List.filter_cons, h']
    · have h' : ¬(u.1 = p.1) := fun e => h e.symm
      simp [Function.comp, if_neg h, List.filter_cons, h']

/-- With pairwise-distinct identifiers, filtering a node list down to one
identifier leaves exactly that entry. -/
theorem filter_fst_single (ns : List (String × NodeAttrs))
    (hnd : (ns.map Prod.fst).Nodup) (p : String × NodeAttrs) (hp : p ∈ ns) :
    ns.filter (fun q => q.1 = p.1) = [p] := by
  induction ns with
  | nil => cases hp
  | cons q ns ih =>
    rw [List.map_cons, List.nodup_cons] at hnd
    rcases List.mem_cons.mp hp with heq | hp'
    · have hnil : ns.filter (fun r => r.1 = p.1) = [] := by
        refine List.filter_eq_nil_iff.mpr ?_
        intro r hr hcond
        have hr1 : r.1 = p.1 := by simpa using hcond
        rw [heq] at hr1
        exact hnd.1 (hr1 ▸ List.mem_map_of_mem Prod.fst hr)
      have hq1 : q.1 = p.1 := by rw [heq]
      simp [List.filter_cons, hq1, hnil, heq]
    · have hq : ¬(q.1 = p.1) := fun e =>
        hnd.1 (e ▸ List.mem_map_of_mem Prod.fst hp')
      simp only [List.filter_cons, hq, decide_eq_true_eq, if_false]
      simpa [hq] using ih hnd.2 hp'

/-- The batched enrichment pass equals one independent enrichment per node. -/
theorem enrichGraph_nodes_eq (env : Enrichment) (g : DiGraph)
    (hnd : (g.nodes.map Prod.fst).Nodup) :
    (enrichDependencyGraph env g).nodes =
      g.nodes.map (fun p => (p.1, mergeEnriched p.2 (enrichNodeData env p.2))) := by
  show ((chunks 10 (g.nodes.map fun p => (p.1, enrichNodeData env p.2))).foldl
      (fun ns b => b.foldl applyUpdate ns) g.nodes) = _
  rw [foldl_batches_eq_flatten, chunks_flatten 10 (by norm_num),
    foldl_applyUpdate_eq_filter]
  refine List.map_congr_left fun p hp => ?_
  have hfilter :
      ((g.nodes.map fun q => (q.1, enrichNodeData env q.2)).filter
        (fun u => u.1 = p.1)) = [(p.1, enrichNodeData env p.2)] := by
    rw [List.filter_map]
    have hpred : g.nodes.filter ((fun (u : String × EnrichedData) => decide (u.1 = p.1)) ∘
        (fun q => (q.1, enrichNodeData env q.2))) =
        g.nodes.filter (fun q => q.1 = p.1) := rfl
    rw [hpred, filter_fst_single g.nodes hnd p hp]
    rfl
  rw [hfilter]
  rfl

/-- C7 counterexample: with a trust lookup that throws after the registry
and security lookups succeeded, the failed node does not keep its
pre-enrichment (empty) metadata — it retains the registry and security data
written before the failure. -/
theorem C7_counterexample :
    (buildDependencyGraph envTrustFails sbomOneNpm).nodes.map
        (fun p => (p.2.registry_info.isSome, p.2.security_info.isSome,
                   p.2.trust_info.isSome)) =
      [(true, true, false)] := by
  rfl

/-- C7 amended: an enrichment failure is caught and never propagates out of
graph construction — the pass equals one independent enrichment per node
(so the other nodes of the batch are enriched exactly as if the failing node
were absent) and leaves the edges alone — and the failing node keeps
whatever enrichment data the lookups before the failure produced, which is
empty exactly when the first lookup of its `try` block failed. -/
theorem C7_enrichment_failure_contained :
    (∀ (env : Enrichment) (g : DiGraph), (g.nodes.map Prod.fst).Nodup →
        (enrichDependencyGraph env g).nodes =
            g.nodes.map (fun p => (p.1, mergeEnriched p.2 (enrichNodeData env p.2))) ∧
          (enrichDependencyGraph env g).edges = g.edges) ∧
    (∀ (env : Enrichment) (a : NodeAttrs) (msg : String),
        registryManagers.contains (extractPackageManager a.purl) = true →
        env.getPackageInfo (extractPackageManager a.purl) a.name a.version = .error msg →
        enrichNodeData env a = {}) ∧
    (∀ (env : Enrichment) (a : NodeAttrs) (msg : String),
        registryManagers.contains (extractPackageManager a.purl) = false →
        env.getSecurityInfo a.name a.version (extractPackageManager a.purl) = .error msg →
        enrichNodeData env a = {}) := by
  refine ⟨fun env g hnd => ⟨enrichGraph_nodes_eq env g hnd, rfl⟩, ?_, ?_⟩
  · intro env a msg hpm herr
    have hpm' : extractPackageManager a.purl ∈ registryManagers := by simpa using hpm
    simp [enrichNodeData, hpm', herr]
  · intro env a msg hpm herr
    have hpm' : extractPackageManager a.purl ∉ registryManagers := by simpa using hpm
    simp [enrichNodeData, enrichSecurityTrust, hpm', herr]

/-- Witness for C7's amended statement: the per-node form on a concrete
graph, and the empty enrichment of a node whose first lookup fails. -/
theorem C7_witness :
    (((buildGraphBase sbomOneNpm).nodes.map Prod.fst).Nodup ∧
      (enrichDependencyGraph envTrustFails (buildGraphBase sbomOneNpm)).nodes =
        (buildGraphBase sbomOneNpm).nodes.map
          (fun p => (p.1, mergeEnriched p.2 (enrichNodeData envTrustFails p.2)))) ∧
    enrichNodeData envAllFail missingNameAttrs = {} :=
  ⟨⟨by decide,
    (C7_enrichment_failure_contained.1 envTrustFails (buildGraphBase sbomOneNpm)
      (by decide)).1⟩,
   C7_enrichment_failure_contained.2.2 envAllFail missingNameAttrs "security feed down"
     (by decide) rfl⟩

/-- C1: the analysis raises for a minimal well-formed SBOM with one
dependency edge — `_extract_dependencies` tags every edge `depends_on`, a
value the `DependencyType` enum does not contain, so `_analyze_edges` raises
`ValueError` instead of returning a complete result. -/
theorem C1_raises_on_any_dependency_edge :
    analyzeSupplyChain stubEnv sbomOneEdge "analysis-1" "2026-10-12T00:00:00Z" =
      .error (.valueError "'depends_on' is not a valid DependencyType") := by
  rfl

/-- Reduction of a successful `Except` bind. -/
theorem except_bind_ok {ε α β : Type} (a : α) (f : α → Except ε β) :
    (Except.ok a >>= f) = f a := rfl

/-- C9: two runs over the same SBOM with the same (deterministic) enrichment
collaborators agree on every field of the result except the per-invocation
identifier and timestamp. -/
theorem C9_deterministic_up_to_id_and_timestamp (env : Enrichment) (sbom : Sbom)
    (id₁ ts₁ id₂ ts₂ : String) :
    (analyzeSupplyChain env sbom id₁ ts₁).map SupplyChainAnalysis.core =
      (analyzeSupplyChain env sbom id₂ ts₂).map SupplyChainAnalysis.core := by
  simp only [analyzeSupplyChain]
  cases hE : analyzeEdges (buildDependencyGraph env sbom) with
  | error e => rfl
  | ok es =>
    simp only [except_bind_ok]
    cases hG : generateRecommendations
        (performGraphAnalysis (buildDependencyGraph env sbom)
          (analyzeNodes (buildDependencyGraph env sbom)) es)
        (analyzeNodes (buildDependencyGraph env sbom)) es with
    | error e => rfl
    | ok recs => rfl

end SupplyChain
